import Mathlib

/-!
Shallow embedding of the kiloshare-mobile chat / handoff core
(`src/lib/chat.ts` and the handoff logic of
`src/screens/messages/ChatScreen.tsx`).

The Supabase tables (`booking_requests`, `announcements`, `profiles`,
`messages`, `ratings`) are modelled as lists of rows inside a `Db` record;
each library function becomes a pure Lean function from a `Db` (plus its
arguments and, where the database would assign a timestamp or the code
would draw randomness, explicit `now` / `rand` parameters) to the updated
`Db` and its return value.  Row update statements (`update ... eq id`)
become `List.map` over the table, inserts become list append, `single()`
lookups become `List.find?`.
-/

namespace KiloShare

/-- The `HandoffStep` union type of `src/lib/types`:
`'none' | 'sender_confirmed' | 'handed_over' | 'delivered'`. -/
inductive HandoffStep where
  | none
  | sender_confirmed
  | handed_over
  | delivered
deriving DecidableEq, Repr

/-- Booking statuses that appear in the source
(pending, approved, rejected, cancelled, handed_over, delivered). -/
inductive BookingStatus where
  | pending
  | approved
  | rejected
  | cancelled
  | handed_over
  | delivered
deriving DecidableEq, Repr

/-- A row of the `booking_requests` table.  `handoff_step` and
`delivery_code` are nullable columns. -/
structure BookingRow where
  id : String
  user_id : String
  announcement_id : String
  status : BookingStatus
  handoff_step : Option HandoffStep
  delivery_code : Option String
deriving DecidableEq, Repr

/-- A row of the `announcements` table (the fields the chat core reads). -/
structure AnnouncementRow where
  id : String
  user_id : String
  departure_city : String
  destination_city : String
  departure_date : String
deriving DecidableEq, Repr

/-- A row of the `profiles` table (the fields the chat core reads). -/
structure ProfileRow where
  id : String
  first_name : Option String
  last_name : Option String
  avatar_url : Option String
  email : Option String
  username : Option String
deriving DecidableEq, Repr

/-- A row of the `messages` table.  `created_at` timestamps are modelled
as naturals assigned by the caller. -/
structure MessageRow where
  booking_request_id : String
  sender_id : String
  content : String
  is_system : Bool
  read_at : Option Nat
  created_at : Nat
deriving DecidableEq, Repr

/-- A row of the `ratings` table. -/
structure RatingRow where
  booking_request_id : String
  rater_id : String
  rated_id : String
  score : Int
  comment : Option String
deriving DecidableEq, Repr

/-- The database state seen by the chat core. -/
structure Db where
  bookings : List BookingRow
  announcements : List AnnouncementRow
  profiles : List ProfileRow
  messages : List MessageRow
  ratings : List RatingRow
deriving DecidableEq, Repr

/-- `single()` lookup of a booking by id. -/
def findBooking (db : Db) (bookingRequestId : String) : Option BookingRow :=
  db.bookings.find? (fun b => decide (b.id = bookingRequestId))

/-- `single()` lookup of an announcement by id. -/
def findAnnouncement (db : Db) (annId : String) : Option AnnouncementRow :=
  db.announcements.find? (fun a => decide (a.id = annId))

/-- `maybeSingle()` lookup of a profile by user id. -/
def findProfile (db : Db) (userId : String) : Option ProfileRow :=
  db.profiles.find? (fun p => decide (p.id = userId))

/-- The single error kind the chat library throws on bad input
(`'Message must be between 1 and 2000 characters'`). -/
inductive ChatError where
  | validationError
deriving DecidableEq, Repr

/-- JS `String.prototype.trim` over the character list: drop whitespace
from both ends. -/
def trimChars (l : List Char) : List Char :=
  ((l.dropWhile Char.isWhitespace).reverse.dropWhile Char.isWhitespace).reverse

/-- JS `trim()` (kernel-computable model of removing leading and trailing
whitespace). -/
def jsTrim (s : String) : String := String.mk (trimChars s.data)

/-- JS `toUpperCase()` (character-wise uppercasing). -/
def jsToUpper (s : String) : String := String.mk (s.data.map Char.toUpper)

/-- `sendMessage` of `src/lib/chat.ts`: trims the content, rejects an
empty or over-2000-character result, otherwise appends one message row
and returns it. -/
def sendMessage (db : Db) (bookingRequestId senderId content : String) (now : Nat) :
    Except ChatError (Db × MessageRow) :=
  let trimmed := jsTrim content
  if trimmed = "" ∨ trimmed.length > 2000 then
    .error .validationError
  else
    let row : MessageRow :=
      { booking_request_id := bookingRequestId
        sender_id := senderId
        content := trimmed
        is_system := false
        read_at := Option.none
        created_at := now }
    .ok ({ db with messages := db.messages ++ [row] }, row)

/-- `markAsRead` of `src/lib/chat.ts`: one bulk update setting `read_at`
to now on every message of the conversation sent by another user and not
yet read. -/
def markAsRead (db : Db) (bookingRequestId userId : String) (now : Nat) : Db :=
  { db with messages := db.messages.map (fun m =>
      if m.booking_request_id = bookingRequestId ∧ m.sender_id ≠ userId ∧
          m.read_at = Option.none then
        { m with read_at := some now }
      else m) }

/-- The alphabet of `generateDeliveryCode`:
`'ABCDEFGHJKLMNPQRSTUVWXYZ23456789'`. -/
def deliveryChars : List Char := "ABCDEFGHJKLMNPQRSTUVWXYZ23456789".data

/-- `generateDeliveryCode` of `src/lib/chat.ts`.  The ten draws of
`Math.floor(Math.random() * chars.length)` are modelled as a function
`rand : Fin 10 → Fin 32` (the alphabet has 32 characters, so each draw
lies in `0..31`). -/
def generateDeliveryCode (rand : Fin 10 → Fin 32) : String :=
  String.mk ((List.finRange 10).map (fun i => deliveryChars.getD (rand i).val 'A'))

/-- The `systemMessages` record of `confirmHandoff` (no entry for
`'none'`). -/
def systemMessageFor : HandoffStep → Option String
  | .sender_confirmed => some "[HANDOFF] sender_confirmed"
  | .handed_over => some "[HANDOFF] handed_over"
  | .delivered => some "[HANDOFF] delivered"
  | .none => Option.none

/-- The `statusForStep` record of `confirmHandoff` (entries only for
`handed_over` and `delivered`). -/
def statusForStep : HandoffStep → Option BookingStatus
  | .handed_over => some .handed_over
  | .delivered => some .delivered
  | _ => Option.none

/-- `confirmHandoff` of `src/lib/chat.ts`: unconditionally updates the
booking row (`update ... eq id` — note there is no guard on the current
`handoff_step`), generating a delivery code when the step is
`handed_over`, then appends the step's system message (if any) and
returns the generated code. -/
def confirmHandoff (db : Db) (bookingRequestId senderId : String) (step : HandoffStep)
    (rand : Fin 10 → Fin 32) (now : Nat) : Db × Option String :=
  let deliveryCode : Option String :=
    if step = .handed_over then some (generateDeliveryCode rand) else Option.none
  let db1 : Db := { db with bookings := db.bookings.map (fun b =>
      if b.id = bookingRequestId then
        { b with
          handoff_step := some step
          status := (statusForStep step).getD b.status
          delivery_code :=
            match deliveryCode with
            | some c => some c
            | Option.none => b.delivery_code }
      else b) }
  let db2 : Db :=
    match systemMessageFor step with
    | some content =>
      { db1 with messages := db1.messages ++
          [{ booking_request_id := bookingRequestId
             sender_id := senderId
             content := content
             is_system := true
             read_at := Option.none
             created_at := now }] }
    | Option.none => db1
  (db2, deliveryCode)

/-- `code.toUpperCase().trim()`: both sides of the delivery-code
comparison are uppercased and trimmed. -/
def upTrim (s : String) : String := jsTrim (jsToUpper s)

/-- The select phase of `validateDeliveryCode`: read
`delivery_code, handoff_step` of the booking (`single()`), `none` when
the booking does not exist or the read fails. -/
def validateRead (db : Db) (bookingRequestId : String) :
    Option (Option String × Option HandoffStep) :=
  (findBooking db bookingRequestId).map (fun b => (b.delivery_code, b.handoff_step))

/-- The decision phase of `validateDeliveryCode`, applied to the data the
select phase returned: false on a missing row, a `handoff_step` other
than `handed_over`, a null (or empty, hence JS-falsy) stored code, or a
mismatch after uppercasing and trimming both sides. -/
def validateCheck (code : String) (row : Option (Option String × Option HandoffStep)) :
    Bool :=
  match row with
  | Option.none => false
  | some (dc, hs) =>
    if hs ≠ some .handed_over then false
    else
      match dc with
      | some stored => decide (stored ≠ "" ∧ upTrim code = upTrim stored)
      | Option.none => false

/-- The `'[HANDOFF] delivered'` system message row. -/
def deliveredMessage (bookingRequestId senderId : String) (now : Nat) : MessageRow :=
  { booking_request_id := bookingRequestId
    sender_id := senderId
    content := "[HANDOFF] delivered"
    is_system := true
    read_at := Option.none
    created_at := now }

/-- The commit phase of `validateDeliveryCode`: set
`handoff_step, status` to delivered (`update ... eq id` — again with no
guard on the current `handoff_step`) and append the delivered system
message. -/
def validateCommit (db : Db) (bookingRequestId senderId : String) (now : Nat) : Db :=
  let db1 : Db := { db with bookings := db.bookings.map (fun b =>
      if b.id = bookingRequestId then
        { b with handoff_step := some .delivered, status := .delivered }
      else b) }
  { db1 with messages := db1.messages ++ [deliveredMessage bookingRequestId senderId now] }

/-- `validateDeliveryCode` of `src/lib/chat.ts`: select, check, and on
success commit and return true; on any failed check return false with no
mutation. -/
def validateDeliveryCode (db : Db) (bookingRequestId code senderId : String) (now : Nat) :
    Db × Bool :=
  if validateCheck code (validateRead db bookingRequestId) then
    (validateCommit db bookingRequestId senderId now, true)
  else
    (db, false)

/-- `fetchHandoffStep` of `src/lib/chat.ts`: `'none'` on a failed lookup
(including a nonexistent booking) and on a null column, otherwise the
stored step.  The `failure` flag models a transient storage error on the
select. -/
def fetchHandoffStep (failure : Bool) (db : Db) (bookingRequestId : String) :
    HandoffStep :=
  if failure then .none
  else
    match findBooking db bookingRequestId with
    | Option.none => .none
    | some b => b.handoff_step.getD .none

/-- `submitRating` of `src/lib/chat.ts`: inserts one rating row.  The
source performs no validation of `score`; `comment || null` turns an
absent or empty comment into null. -/
def submitRating (db : Db) (bookingRequestId raterId ratedId : String) (score : Int)
    (comment : Option String) : Db :=
  let stored : Option String :=
    match comment with
    | some c => if c = "" then Option.none else some c
    | Option.none => Option.none
  { db with ratings := db.ratings ++
      [{ booking_request_id := bookingRequestId
         rater_id := raterId
         rated_id := ratedId
         score := score
         comment := stored }] }

/-- `fetchUserAverageRating` of `src/lib/chat.ts`: the scores with
`rated_id = userId`; `{average: 0, count: 0}` on a failed lookup or an
empty result, otherwise `(sum / length, length)`. -/
def fetchUserAverageRating (failure : Bool) (db : Db) (userId : String) : ℚ × Nat :=
  let data : List Int := (db.ratings.filter (fun r => decide (r.rated_id = userId))).map
    (fun r => r.score)
  if failure ∨ data = [] then (0, 0)
  else (((data.sum : ℚ) / (data.length : ℚ)), data.length)

/-- The display profile built by `fetchConversations` for the counterpart. -/
structure DisplayProfile where
  first_name : Option String
  last_name : Option String
  avatar_url : Option String
deriving DecidableEq, Repr

/-- The announcement summary embedded in a conversation. -/
structure AnnouncementSummary where
  departure_city : String
  destination_city : String
  departure_date : String
deriving DecidableEq, Repr

/-- The `ConversationSummary` shape returned by `fetchConversations`. -/
structure ConversationSummary where
  booking_request_id : String
  other_user : DisplayProfile
  other_user_id : String
  last_message : Option String
  last_message_at : Option Nat
  unread_count : Nat
  announcement : AnnouncementSummary
deriving DecidableEq, Repr

/-- JS truthiness of a nullable string: null and `''` are falsy. -/
def jsTruthy : Option String → Bool
  | some s => decide (s ≠ "")
  | Option.none => false

/-- JS `a || b` on nullable strings. -/
def jsOr (a b : Option String) : Option String := if jsTruthy a then a else b

/-- JS `email?.split('@')[0]`. -/
def emailLocalPart : Option String → Option String
  | some e => some ((e.splitOn "@").headD "")
  | Option.none => Option.none

/-- The display first name:
`first_name || username || email?.split('@')[0] || null`. -/
def displayNameOf (p : ProfileRow) : Option String :=
  let n := jsOr p.first_name (jsOr p.username (emailLocalPart p.email))
  if jsTruthy n then n else Option.none

/-- The `displayProfile` built from the counterpart's profile row, all
fields null when the profile lookup returned nothing. -/
def displayProfileOf : Option ProfileRow → DisplayProfile
  | some p =>
    { first_name := displayNameOf p
      last_name := p.last_name
      avatar_url := p.avatar_url }
  | Option.none =>
    { first_name := Option.none
      last_name := Option.none
      avatar_url := Option.none }

/-- The messages of one conversation. -/
def messagesFor (db : Db) (bookingRequestId : String) : List MessageRow :=
  db.messages.filter (fun m => decide (m.booking_request_id = bookingRequestId))

/-- The `order(created_at desc).limit(1)` query: a message with maximal
`created_at`, `none` on an empty conversation. -/
def latestMessage : List MessageRow → Option MessageRow
  | [] => Option.none
  | m :: rest =>
    match latestMessage rest with
    | Option.none => some m
    | some m2 => if m2.created_at > m.created_at then some m2 else some m

/-- The unread count of one conversation: messages of the booking sent by
another user with `read_at` still null. -/
def unreadCountFor (db : Db) (bookingRequestId userId : String) : Nat :=
  (db.messages.filter (fun m =>
    decide (m.booking_request_id = bookingRequestId ∧ m.sender_id ≠ userId ∧
      m.read_at = Option.none))).length

/-- One `ConversationSummary` as the `fetchConversations` loop body builds
it.  `lastMsg?.content || null` and `lastMsg?.created_at || null` are the
JS null-coalescings of the source (`created_at` is an ISO string there,
truthy whenever present, so it maps to `Option.map`). -/
def buildConversation (db : Db) (userId : String) (b : BookingRow)
    (ann : AnnouncementRow) : ConversationSummary :=
  let otherUserId := if b.user_id = userId then ann.user_id else b.user_id
  let lastMsg := latestMessage (messagesFor db b.id)
  { booking_request_id := b.id
    other_user := displayProfileOf (findProfile db otherUserId)
    other_user_id := otherUserId
    last_message :=
      match lastMsg with
      | some m => if m.content = "" then Option.none else some m.content
      | Option.none => Option.none
    last_message_at := lastMsg.map (fun m => m.created_at)
    unread_count := unreadCountFor db b.id userId
    announcement :=
      { departure_city := ann.departure_city
        destination_city := ann.destination_city
        departure_date := ann.departure_date } }

/-- The `not('status','in','(pending,rejected,cancelled)')` filter. -/
def statusVisible : BookingStatus → Bool
  | .pending => false
  | .rejected => false
  | .cancelled => false
  | _ => true

/-- One iteration of the `fetchConversations` loop: skip a booking whose
announcement lookup returns nothing (`if (!ann) continue`), skip one
where the user is neither the booking's sender nor the announcement's
owner, and build a summary otherwise. -/
def conversationRow (db : Db) (userId : String) (b : BookingRow) :
    Option ConversationSummary :=
  match findAnnouncement db b.announcement_id with
  | Option.none => Option.none
  | some ann =>
    if b.user_id ≠ userId ∧ ann.user_id ≠ userId then Option.none
    else some (buildConversation db userId b ann)

/-- The `fetchConversations` loop over the status-filtered bookings. -/
def conversationRows (db : Db) (userId : String) (bs : List BookingRow) :
    List ConversationSummary :=
  bs.filterMap (conversationRow db userId)

/-- The sort comparator of `fetchConversations`, as the relation "`a` may
stay before `b`": both keys null — either order; a null key sorts after
any non-null key; two non-null keys sort by descending time. -/
def laterKey : Option Nat → Option Nat → Prop
  | _, Option.none => True
  | Option.none, some _ => False
  | some x, some y => y ≤ x

instance : DecidableRel laterKey := fun a b =>
  match a, b with
  | Option.none, Option.none => .isTrue (by simp [laterKey])
  | some _, Option.none => .isTrue (by simp [laterKey])
  | Option.none, some _ => .isFalse (by simp [laterKey])
  | some x, some y => decidable_of_iff (y ≤ x) (by simp [laterKey])

/-- The comparator relation lifted to conversation summaries. -/
def convBeforeOK (a b : ConversationSummary) : Prop :=
  laterKey a.last_message_at b.last_message_at

instance : DecidableRel convBeforeOK := fun a b =>
  inferInstanceAs (Decidable (laterKey a.last_message_at b.last_message_at))

instance : IsTotal ConversationSummary convBeforeOK where
  total a b := by
    unfold convBeforeOK
    rcases a.last_message_at with _ | x <;> rcases b.last_message_at with _ | y <;>
      simp [laterKey] <;> omega

instance : IsTrans ConversationSummary convBeforeOK where
  trans a b c hab hbc := by
    unfold convBeforeOK at *
    rcases ha : a.last_message_at with _ | x <;>
      rcases hb : b.last_message_at with _ | y <;>
      rcases hc : c.last_message_at with _ | z <;>
      simp_all [laterKey] <;> omega

/-- `fetchConversations` of `src/lib/chat.ts`: build the summaries of the
status-filtered bookings, then sort them with the comparator (a stable
comparison sort, modelled by insertion sort over `convBeforeOK`). -/
def fetchConversations (db : Db) (userId : String) : List ConversationSummary :=
  List.insertionSort convBeforeOK
    (conversationRows db userId (db.bookings.filter (fun b => statusVisible b.status)))

/-! ### The ChatScreen handoff client

`ChatScreen.tsx` keeps a local copy of the booking's handoff step (loaded
with `fetchHandoffStep` and updated after each of its own actions) and
gates the two `confirmHandoff` calls on it (`handleHandoffAction`); a
sender's outgoing text while the local step is `handed_over` is first
offered to `validateDeliveryCode` (`handleSend`). -/

/-- The client-side state of one open `ChatScreen`. -/
structure ClientState where
  bookingId : String
  userId : String
  isSender : Bool
  isTraveler : Bool
  localStep : HandoffStep
deriving DecidableEq, Repr

/-- `handleHandoffAction` of `ChatScreen.tsx`: the sender may confirm the
handoff only while the (cached) step is `none`; the traveler may confirm
reception only while it is `sender_confirmed`; otherwise nothing
happens. -/
def handleHandoffAction (c : ClientState) (db : Db) (rand : Fin 10 → Fin 32)
    (now : Nat) : ClientState × Db :=
  if c.isSender = true ∧ c.localStep = .none then
    let r := confirmHandoff db c.bookingId c.userId .sender_confirmed rand now
    ({ c with localStep := .sender_confirmed }, r.1)
  else if c.isTraveler = true ∧ c.localStep = .sender_confirmed then
    let r := confirmHandoff db c.bookingId c.userId .handed_over rand now
    ({ c with localStep := .handed_over }, r.1)
  else (c, db)

/-- Sending a chat message from the screen: the screen's `try/catch`
swallows a send failure (an alert is shown and the database is left as it
was). -/
def sendIgnoringError (db : Db) (bookingRequestId senderId t : String) (now : Nat) :
    Db :=
  match sendMessage db bookingRequestId senderId t now with
  | .ok p => p.1
  | .error _ => db

/-- `handleSend` of `ChatScreen.tsx`: an empty input is ignored; while the
cached step is `handed_over` and the user is the sender, the text is first
tried as a delivery code and on success the local step becomes
`delivered`; otherwise (and on a failed check) the text is sent as an
ordinary message. -/
def handleSend (c : ClientState) (db : Db) (text : String) (now : Nat) :
    ClientState × Db :=
  let t := jsTrim text
  if t = "" then (c, db)
  else if c.localStep = .handed_over ∧ c.isSender = true then
    let r := validateDeliveryCode db c.bookingId t c.userId now
    if r.2 then ({ c with localStep := .delivered }, r.1)
    else (c, sendIgnoringError r.1 c.bookingId c.userId t now)
  else (c, sendIgnoringError db c.bookingId c.userId t now)

/-- The actions of one chat session that can touch the handoff state. -/
inductive ClientAction where
  | handoffAction (rand : Fin 10 → Fin 32) (now : Nat)
  | sendText (text : String) (now : Nat)

/-- One client action applied to the client and database state. -/
def runAction (c : ClientState) (db : Db) : ClientAction → ClientState × Db
  | .handoffAction rand now => handleHandoffAction c db rand now
  | .sendText text now => handleSend c db text now

/-- The booking's stored handoff step as an observer reads it
(`fetchHandoffStep` without failure). -/
def dbStep (db : Db) (bookingRequestId : String) : HandoffStep :=
  match findBooking db bookingRequestId with
  | some b => b.handoff_step.getD .none
  | Option.none => .none

/-- The stored handoff step observed before and after each action of a
session. -/
def observe (c : ClientState) (db : Db) : List ClientAction → List HandoffStep
  | [] => [dbStep db c.bookingId]
  | a :: rest =>
    dbStep db c.bookingId ::
      observe (runAction c db a).1 (runAction c db a).2 rest

/-- Collapse adjacent repetitions: the distinct values a watcher of the
step sees over time. -/
def collapseSteps : List HandoffStep → List HandoffStep
  | [] => []
  | [s] => [s]
  | s :: s2 :: rest =>
    if s = s2 then collapseSteps (s2 :: rest) else s :: collapseSteps (s2 :: rest)

/-- The handoff order `none → sender_confirmed → handed_over →
delivered`. -/
def handoffOrder : List HandoffStep :=
  [.none, .sender_confirmed, .handed_over, .delivered]

/-- The position of a step in the handoff order. -/
def stepIdx : HandoffStep → Nat
  | .none => 0
  | .sender_confirmed => 1
  | .handed_over => 2
  | .delivered => 3

/-- The session's cached step agrees with the stored one (true right after
the screen loads it and, sequentially, after each own action). -/
def ClientSync (c : ClientState) (db : Db) : Prop :=
  ∃ b, findBooking db c.bookingId = some b ∧ b.handoff_step.getD .none = c.localStep

/-! ### Concrete states used by witnesses -/

/-- An empty database. -/
def emptyDb : Db :=
  { bookings := [], announcements := [], profiles := [], messages := [], ratings := [] }

/-- The scores with `rated_id = userId`, as `fetchUserAverageRating`
selects them. -/
def ratingScores (db : Db) (userId : String) : List Int :=
  (db.ratings.filter (fun r => decide (r.rated_id = userId))).map (fun r => r.score)

/-! ### Claim theorems -/

/-- A string has length zero exactly when it is empty. -/
theorem string_length_eq_zero (s : String) : s.length = 0 ↔ s = "" := by
  cases s with
  | mk d =>
    simp only [String.length]
    constructor
    · intro h
      have hd : d = [] := List.eq_nil_of_length_eq_zero h
      rw [hd]
    · intro h
      have hd : d = [] := by simpa using congrArg String.data h
      simp [hd]

/-- C6: `markAsRead` sets `read_at` (to the given time) on exactly the
messages of the conversation sent by the other party that still have
`read_at` null, touches nothing else, is idempotent (an immediately
repeated call, even at a later time, changes nothing further), and is
total — it cannot fail when there is nothing to mark. -/
theorem markAsRead_spec (db : Db) (bookingRequestId userId : String) (t t2 : Nat) :
    (markAsRead db bookingRequestId userId t).messages =
      db.messages.map (fun m =>
        if m.booking_request_id = bookingRequestId ∧ m.sender_id ≠ userId ∧
            m.read_at = Option.none then { m with read_at := some t } else m) ∧
    (markAsRead db bookingRequestId userId t).bookings = db.bookings ∧
    (markAsRead db bookingRequestId userId t).announcements = db.announcements ∧
    (markAsRead db bookingRequestId userId t).profiles = db.profiles ∧
    (markAsRead db bookingRequestId userId t).ratings = db.ratings ∧
    markAsRead (markAsRead db bookingRequestId userId t) bookingRequestId userId t2 =
      markAsRead db bookingRequestId userId t := by
  refine ⟨rfl, rfl, rfl, rfl, rfl, ?_⟩
  simp only [markAsRead, List.map_map]
  congr 1
  apply List.map_congr_left
  intro m _
  by_cases hc : m.booking_request_id = bookingRequestId ∧ m.sender_id ≠ userId ∧
      m.read_at = Option.none
  · simp [Function.comp, hc]
  · simp [Function.comp, hc]

/-- C7: `sendMessage` trims the content and fails with the validation
error exactly when the trimmed length is `0` or greater than `2000`
(so a trimmed length of exactly 2000 succeeds, 2001 fails, and an
all-whitespace content fails); on success it appends exactly one message
row carrying the trimmed content, marking nothing as read. -/
theorem sendMessage_spec (db : Db) (bookingRequestId senderId content : String)
    (now : Nat) :
    (sendMessage db bookingRequestId senderId content now =
        Except.error ChatError.validationError ↔
      (jsTrim content).length = 0 ∨ (jsTrim content).length > 2000) ∧
    (¬ ((jsTrim content).length = 0 ∨ (jsTrim content).length > 2000) →
      sendMessage db bookingRequestId senderId content now =
        Except.ok
          ({ db with messages := db.messages ++
              [{ booking_request_id := bookingRequestId
                 sender_id := senderId
                 content := (jsTrim content)
                 is_system := false
                 read_at := Option.none
                 created_at := now }] },
            { booking_request_id := bookingRequestId
              sender_id := senderId
              content := (jsTrim content)
              is_system := false
              read_at := Option.none
              created_at := now })) := by
  have hlen := string_length_eq_zero (jsTrim content)
  by_cases h : (jsTrim content) = "" ∨ (jsTrim content).length > 2000
  · have hlenor : (jsTrim content).length = 0 ∨ (jsTrim content).length > 2000 := by
      rcases h with h | h
      · exact Or.inl (hlen.mpr h)
      · exact Or.inr h
    refine ⟨?_, fun hc => absurd hlenor hc⟩
    simp only [sendMessage]
    rw [if_pos h]
    exact iff_of_true rfl hlenor
  · have hlenn : ¬ ((jsTrim content).length = 0 ∨ (jsTrim content).length > 2000) := by
      intro hc
      rcases hc with hc | hc
      · exact h (Or.inl (hlen.mp hc))
      · exact h (Or.inr hc)
    refine ⟨?_, fun _ => ?_⟩
    · simp only [sendMessage]
      rw [if_neg h]
      exact iff_of_false (fun hcontra => by cases hcontra) hlenn
    · simp only [sendMessage]
      rw [if_neg h]

/-- C9: `fetchUserAverageRating` returns the arithmetic mean and count of
all scores whose `rated_id` is the user (the returned average times the
count equals the sum, with exact rational division), and `(0, 0)` when no
rating exists or the lookup fails — it never divides by zero. -/
theorem fetchUserAverageRating_spec (failure : Bool) (db : Db) (userId : String) :
    (failure = true ∨ ratingScores db userId = [] →
      fetchUserAverageRating failure db userId = (0, 0)) ∧
    (failure = false → ratingScores db userId ≠ [] →
      fetchUserAverageRating failure db userId =
        (((ratingScores db userId).sum : ℚ) / ((ratingScores db userId).length : ℚ),
          (ratingScores db userId).length) ∧
      (((ratingScores db userId).sum : ℚ) / ((ratingScores db userId).length : ℚ)) *
          ((ratingScores db userId).length : ℚ) =
        ((ratingScores db userId).sum : ℚ)) := by
  constructor
  · intro h
    rcases h with h | h
    · simp [fetchUserAverageRating, h]
    · simp only [ratingScores] at h
      simp [fetchUserAverageRating, h]
  · intro hf hne
    simp only [ratingScores] at hne
    have hcond : ¬ (failure = true ∨
        (db.ratings.filter (fun r => decide (r.rated_id = userId))).map
          (fun r => r.score) = []) := by
      intro hc
      rcases hc with hc | hc
      · rw [hf] at hc; cases hc
      · exact hne hc
    constructor
    · simp only [fetchUserAverageRating, if_neg hcond]
      rfl
    · have hlen : ((ratingScores db userId).length : ℚ) ≠ 0 := by
        have hne2 : (ratingScores db userId).length ≠ 0 := by
          intro h0
          exact hne (by simp only [ratingScores] at h0 ⊢; exact List.eq_nil_of_length_eq_zero h0)
        exact_mod_cast hne2
      exact div_mul_cancel₀ _ hlen

/-- C10: `fetchHandoffStep` never raises: it returns `'none'` on a
storage failure, on a nonexistent booking, and on a null stored column,
and the stored step otherwise — so its caller cannot tell a missing
booking from one whose handoff has not started. -/
theorem fetchHandoffStep_spec (failure : Bool) (db : Db) (bookingRequestId : String) :
    (failure = true →
      fetchHandoffStep failure db bookingRequestId = HandoffStep.none) ∧
    (findBooking db bookingRequestId = Option.none →
      fetchHandoffStep failure db bookingRequestId = HandoffStep.none) ∧
    (∀ b, findBooking db bookingRequestId = some b → b.handoff_step = Option.none →
      fetchHandoffStep failure db bookingRequestId = HandoffStep.none) ∧
    (∀ b s, findBooking db bookingRequestId = some b → b.handoff_step = some s →
      failure = false → fetchHandoffStep failure db bookingRequestId = s) := by
  refine ⟨fun h => by simp [fetchHandoffStep, h], fun h => ?_, fun b hb hn => ?_,
    fun b s hb hs hf => ?_⟩
  · unfold fetchHandoffStep
    rw [h]
    cases failure <;> simp
  · unfold fetchHandoffStep
    rw [hb]
    cases failure <;> simp [hn]
  · simp [fetchHandoffStep, hf, hb, hs]

/-- C4 (code evaluated at the failing input): `submitRating` performs no
score validation — with the out-of-range score 6 it does not fail, and it
inserts the rating row. -/
theorem submitRating_score_six_inserts :
    submitRating emptyDb "b1" "r1" "t1" 6 Option.none =
      { emptyDb with ratings :=
          [{ booking_request_id := "b1", rater_id := "r1", rated_id := "t1",
             score := 6, comment := Option.none }] } := rfl

/-- The conditions under which the claim says `validateDeliveryCode` may
succeed: the booking exists, its step is exactly `handed_over`, a
delivery code is stored, and the submitted code equals it after
uppercasing and trimming both sides. -/
def CodeAccepted (db : Db) (bookingRequestId code : String) : Prop :=
  ∃ b, findBooking db bookingRequestId = some b ∧
    b.handoff_step = some HandoffStep.handed_over ∧
    ∃ dc, b.delivery_code = some dc ∧ upTrim code = upTrim dc

/-- The check phase passes exactly under the claim's conditions (with the
JS-truthiness caveat that the stored code is also non-empty). -/
theorem validateCheck_true_iff (db : Db) (bookingRequestId code : String) :
    validateCheck code (validateRead db bookingRequestId) = true ↔
      ∃ b, findBooking db bookingRequestId = some b ∧
        b.handoff_step = some HandoffStep.handed_over ∧
        ∃ dc, b.delivery_code = some dc ∧ dc ≠ "" ∧ upTrim code = upTrim dc := by
  unfold validateCheck validateRead
  cases hfb : findBooking db bookingRequestId with
  | none => simp
  | some b =>
    simp only [Option.map_some']
    by_cases hstep : b.handoff_step = some HandoffStep.handed_over
    · rw [if_neg (by simp [hstep])]
      cases hdc : b.delivery_code with
      | none =>
        constructor
        · intro hcontra; simp at hcontra
        · rintro ⟨b2, hb2, -, dc, hdc2, -⟩
          obtain rfl : b2 = b := by injection hb2 with h; exact h.symm
          rw [hdc] at hdc2
          cases hdc2
      | some stored =>
        simp only [decide_eq_true_eq]
        constructor
        · rintro ⟨hne, hup⟩
          exact ⟨b, rfl, hstep, stored, hdc, hne, hup⟩
        · rintro ⟨b2, hb2, -, dc, hdc2, hne, hup⟩
          obtain rfl : b2 = b := by injection hb2 with h; exact h.symm
          obtain rfl : dc = stored := by rw [hdc] at hdc2; injection hdc2 with h; exact h.symm
          exact ⟨hne, hup⟩
    · rw [if_pos (by simp [hstep])]
      constructor
      · intro hcontra; simp at hcontra
      · rintro ⟨b2, hb2, hs2, -⟩
        obtain rfl : b2 = b := by injection hb2 with h; exact h.symm
        exact absurd hs2 hstep

/-- C1: `validateDeliveryCode` fails closed.  In a database whose stored
delivery codes are well formed (non-empty — the generator only ever
stores 10-character codes), the call returns false and mutates nothing
unless the booking exists with `handoff_step` exactly `handed_over`, a
stored delivery code, and a submitted code equal to it after uppercasing
and trimming both sides; when all of that holds it sets `handoff_step`
and `status` to delivered, appends exactly one `'[HANDOFF] delivered'`
system message, and returns true. -/
theorem validateDeliveryCode_spec (db : Db) (bookingRequestId code senderId : String)
    (now : Nat)
    (hwf : ∀ b ∈ db.bookings, ∀ dc, b.delivery_code = some dc → dc ≠ "") :
    (¬ CodeAccepted db bookingRequestId code →
      validateDeliveryCode db bookingRequestId code senderId now = (db, false)) ∧
    (CodeAccepted db bookingRequestId code →
      (validateDeliveryCode db bookingRequestId code senderId now).2 = true ∧
      (validateDeliveryCode db bookingRequestId code senderId now).1.messages =
        db.messages ++ [deliveredMessage bookingRequestId senderId now] ∧
      (validateDeliveryCode db bookingRequestId code senderId now).1.bookings =
        db.bookings.map (fun b =>
          if b.id = bookingRequestId then
            { b with handoff_step := some HandoffStep.delivered,
                     status := BookingStatus.delivered }
          else b) ∧
      (validateDeliveryCode db bookingRequestId code senderId now).1.announcements =
        db.announcements ∧
      (validateDeliveryCode db bookingRequestId code senderId now).1.profiles =
        db.profiles ∧
      (validateDeliveryCode db bookingRequestId code senderId now).1.ratings =
        db.ratings) := by
  have hiff : validateCheck code (validateRead db bookingRequestId) = true ↔
      CodeAccepted db bookingRequestId code := by
    rw [validateCheck_true_iff]
    constructor
    · rintro ⟨b, hb, hs, dc, hdc, -, hup⟩
      exact ⟨b, hb, hs, dc, hdc, hup⟩
    · rintro ⟨b, hb, hs, dc, hdc, hup⟩
      have hbmem : b ∈ db.bookings := List.mem_of_find?_eq_some hb
      exact ⟨b, hb, hs, dc, hdc, hwf b hbmem dc hdc, hup⟩
  constructor
  · intro hno
    have hfalse : validateCheck code (validateRead db bookingRequestId) = false := by
      cases hc : validateCheck code (validateRead db bookingRequestId)
      · rfl
      · exact absurd (hiff.mp hc) hno
    simp [validateDeliveryCode, hfalse]
  · intro hyes
    have htrue : validateCheck code (validateRead db bookingRequestId) = true :=
      hiff.mpr hyes
    simp [validateDeliveryCode, htrue, validateCommit]

/-- A database holding one booking in the `handed_over` state with stored
delivery code `AB23456789`. -/
def handoffBooking : BookingRow :=
  { id := "b1", user_id := "s1", announcement_id := "a1",
    status := BookingStatus.handed_over,
    handoff_step := some HandoffStep.handed_over,
    delivery_code := some "AB23456789" }

/-- The handed-over database used by concrete scenarios. -/
def handoffDb : Db :=
  { bookings := [handoffBooking], announcements := [], profiles := [],
    messages := [], ratings := [] }

/-- C1 (witness): a lowercase, whitespace-padded submission of the stored
code against the handed-over booking is accepted. -/
theorem validateDeliveryCode_spec_witness :
    (validateDeliveryCode handoffDb "b1" " ab23456789 " "s1" 7).2 = true :=
  ((validateDeliveryCode_spec handoffDb "b1" " ab23456789 " "s1" 7
      (by
        intro b hb dc hdc
        have hb1 : b = handoffBooking := by
          simpa [handoffDb] using hb
        rw [hb1] at hdc
        have hdc1 : dc = "AB23456789" := by
          simpa [handoffBooking] using hdc.symm
        rw [hdc1]
        decide)).2
    ⟨handoffBooking, by decide, by decide, "AB23456789", by decide, by decide⟩).1

/-- C5 (code evaluated at the failing interleaving): the source's
delivery-code check is a read followed by an unguarded write
(`update ... eq id` with no condition on the current `handoff_step`), so
when two sessions both read the handed-over booking before either
commits, both checks pass and both commits run — the final state carries
two `'[HANDOFF] delivered'` system messages, both sessions having
reported success. -/
theorem validateDeliveryCode_unguarded_race :
    validateCheck " ab23456789 " (validateRead handoffDb "b1") = true ∧
    validateCheck "AB23456789" (validateRead handoffDb "b1") = true ∧
    ((validateCommit (validateCommit handoffDb "b1" "s1" 7) "b1" "s1" 8).messages.filter
        (fun m => decide (m.content = "[HANDOFF] delivered"))).length = 2 := by
  decide

/-- C3 (counterexample): the delivery-code alphabet
`ABCDEFGHJKLMNPQRSTUVWXYZ23456789` has 32 symbols, not 33. -/
theorem deliveryChars_not_33 :
    deliveryChars.length = 32 ∧ ¬ deliveryChars.length = 33 := by decide

/-- C3 (amended): every delivery code is exactly 10 characters, each
drawn from the 32-symbol alphabet (which has no repeated symbol, so a
uniform index draw gives a uniform character, and excludes the visually
ambiguous 0, O, 1 and I), and `confirmHandoff` generates a fresh code
from its random draws on every transition into `handed_over`. -/
theorem generateDeliveryCode_spec (rand : Fin 10 → Fin 32) (db : Db)
    (bookingRequestId senderId : String) (now : Nat) :
    (generateDeliveryCode rand).length = 10 ∧
    (∀ ch ∈ (generateDeliveryCode rand).data, ch ∈ deliveryChars) ∧
    deliveryChars.length = 32 ∧
    deliveryChars.Nodup ∧
    '0' ∉ deliveryChars ∧ 'O' ∉ deliveryChars ∧ '1' ∉ deliveryChars ∧
    'I' ∉ deliveryChars ∧
    (confirmHandoff db bookingRequestId senderId .handed_over rand now).2 =
      some (generateDeliveryCode rand) := by
  refine ⟨?_, ?_, by decide, by decide, by decide, by decide, by decide, by decide, ?_⟩
  · simp [generateDeliveryCode, String.length]
  · intro ch hch
    simp only [generateDeliveryCode, String.mk] at hch
    simp only [List.mem_map] at hch
    obtain ⟨i, _, hi⟩ := hch
    have h32 : deliveryChars.length = 32 := by decide
    have hlt : (rand i).val < deliveryChars.length := by
      rw [h32]; exact (rand i).isLt
    rw [List.getD_eq_getElem deliveryChars 'A' hlt] at hi
    rw [← hi]
    exact List.getElem_mem hlt
  · rfl

/-! ### The handoff trace is forward-only (sequential sessions) -/

/-- A transition a watcher may observe between two consecutive
observations: either nothing changed or the step advanced to its
immediate successor in the handoff order. -/
def stepR (s s2 : HandoffStep) : Prop :=
  s2 = s ∨ stepIdx s2 = stepIdx s + 1

/-- `find?` by id over an id-preserving update of the matching rows. -/
theorem find?_map_update (l : List BookingRow) (bid : String)
    (f : BookingRow → BookingRow) (hid : ∀ b, (f b).id = b.id) :
    (l.map (fun b => if b.id = bid then f b else b)).find?
        (fun b => decide (b.id = bid)) =
      (l.find? (fun b => decide (b.id = bid))).map f := by
  induction l with
  | nil => rfl
  | cons b l ih =>
    simp only [List.map_cons]
    by_cases hb : b.id = bid
    · rw [if_pos hb]
      rw [List.find?_cons_of_pos _ (by simp [hid, hb]),
        List.find?_cons_of_pos _ (by simp [hb])]
      rfl
    · rw [if_neg hb]
      rw [List.find?_cons_of_neg _ (by simp [hb]),
        List.find?_cons_of_neg _ (by simp [hb])]
      exact ih

/-- Two databases with the same bookings table resolve every booking
lookup alike. -/
theorem findBooking_congr {db1 db2 : Db} (h : db1.bookings = db2.bookings)
    (bid : String) : findBooking db1 bid = findBooking db2 bid := by
  unfold findBooking
  rw [h]

/-- What `confirmHandoff` leaves in the bookings table: the booking
lookup afterwards returns the updated row. -/
theorem findBooking_confirmHandoff (db : Db) (bid sid : String) (step : HandoffStep)
    (rand : Fin 10 → Fin 32) (now : Nat) :
    findBooking (confirmHandoff db bid sid step rand now).1 bid =
      (findBooking db bid).map (fun b =>
        { b with
          handoff_step := some step
          status := (statusForStep step).getD b.status
          delivery_code :=
            match (if step = HandoffStep.handed_over
                then some (generateDeliveryCode rand) else (Option.none : Option String)) with
            | some c => some c
            | Option.none => b.delivery_code }) := by
  have hbk : (confirmHandoff db bid sid step rand now).1.bookings =
      db.bookings.map (fun b =>
        if b.id = bid then
          { b with
            handoff_step := some step
            status := (statusForStep step).getD b.status
            delivery_code :=
              match (if step = HandoffStep.handed_over
                  then some (generateDeliveryCode rand) else (Option.none : Option String)) with
              | some c => some c
              | Option.none => b.delivery_code }
        else b) := by
    unfold confirmHandoff
    cases systemMessageFor step <;> rfl
  unfold findBooking
  rw [hbk]
  exact find?_map_update _ _ _ (fun b => rfl)

/-- What `validateCommit` leaves in the bookings table. -/
theorem findBooking_validateCommit (db : Db) (bid sid : String) (now : Nat) :
    findBooking (validateCommit db bid sid now) bid =
      (findBooking db bid).map (fun b =>
        { b with handoff_step := some HandoffStep.delivered,
                 status := BookingStatus.delivered }) := by
  unfold findBooking validateCommit
  exact find?_map_update _ _ _ (fun b => rfl)

/-- A successful `sendMessage` only appends a message row. -/
theorem sendMessage_ok_bookings (db : Db) (bid sid content : String) (now : Nat)
    (p : Db × MessageRow) (h : sendMessage db bid sid content now = .ok p) :
    p.1.bookings = db.bookings := by
  unfold sendMessage at h
  by_cases hc : jsTrim content = "" ∨ (jsTrim content).length > 2000
  · rw [if_pos hc] at h
    cases h
  · rw [if_neg hc] at h
    injection h with h
    rw [← h]

/-- One session action preserves the cached-step agreement and moves the
stored step (seen through the session's booking) by zero or one position
forward. -/
theorem runAction_preserves (c : ClientState) (db : Db) (a : ClientAction)
    (h : ClientSync c db) :
    (runAction c db a).1.bookingId = c.bookingId ∧
    ClientSync (runAction c db a).1 (runAction c db a).2 ∧
    stepR (dbStep db c.bookingId) (dbStep (runAction c db a).2 c.bookingId) := by
  obtain ⟨b, hb, hsync⟩ := h
  have hdbStep : dbStep db c.bookingId = c.localStep := by
    unfold dbStep
    rw [hb]
    exact hsync
  cases a with
  | handoffAction rand now =>
    simp only [runAction]
    by_cases h1 : c.isSender = true ∧ c.localStep = HandoffStep.none
    · have hres : handleHandoffAction c db rand now =
          ({ c with localStep := HandoffStep.sender_confirmed },
            (confirmHandoff db c.bookingId c.userId HandoffStep.sender_confirmed
              rand now).1) := by
        unfold handleHandoffAction
        rw [if_pos h1]
      rw [hres]
      have hfb := findBooking_confirmHandoff db c.bookingId c.userId
        HandoffStep.sender_confirmed rand now
      rw [hb, Option.map_some'] at hfb
      refine ⟨rfl, ⟨_, hfb, rfl⟩, Or.inr ?_⟩
      have h2 : dbStep (confirmHandoff db c.bookingId c.userId
          HandoffStep.sender_confirmed rand now).1 c.bookingId =
          HandoffStep.sender_confirmed := by
        unfold dbStep
        rw [hfb]
        rfl
      rw [h2, hdbStep, h1.2]
      rfl
    · by_cases h2 : c.isTraveler = true ∧ c.localStep = HandoffStep.sender_confirmed
      · have hres : handleHandoffAction c db rand now =
            ({ c with localStep := HandoffStep.handed_over },
              (confirmHandoff db c.bookingId c.userId HandoffStep.handed_over
                rand now).1) := by
          unfold handleHandoffAction
          rw [if_neg h1, if_pos h2]
        rw [hres]
        have hfb := findBooking_confirmHandoff db c.bookingId c.userId
          HandoffStep.handed_over rand now
        rw [hb, Option.map_some'] at hfb
        refine ⟨rfl, ⟨_, hfb, rfl⟩, Or.inr ?_⟩
        have h3 : dbStep (confirmHandoff db c.bookingId c.userId
            HandoffStep.handed_over rand now).1 c.bookingId =
            HandoffStep.handed_over := by
          unfold dbStep
          rw [hfb]
          rfl
        rw [h3, hdbStep, h2.2]
        rfl
      · have hres : handleHandoffAction c db rand now = (c, db) := by
          unfold handleHandoffAction
          rw [if_neg h1, if_neg h2]
        rw [hres]
        exact ⟨rfl, ⟨b, hb, hsync⟩, Or.inl rfl⟩
  | sendText text now =>
    simp only [runAction]
    by_cases ht : jsTrim text = ""
    · have hres : handleSend c db text now = (c, db) := by
        unfold handleSend
        rw [if_pos ht]
      rw [hres]
      exact ⟨rfl, ⟨b, hb, hsync⟩, Or.inl rfl⟩
    · by_cases h1 : c.localStep = HandoffStep.handed_over ∧ c.isSender = true
      · by_cases hv : validateCheck (jsTrim text) (validateRead db c.bookingId) = true
        · have hvd : validateDeliveryCode db c.bookingId (jsTrim text) c.userId now =
              (validateCommit db c.bookingId c.userId now, true) := by
            unfold validateDeliveryCode
            rw [if_pos hv]
          have hres : handleSend c db text now =
              ({ c with localStep := HandoffStep.delivered },
                validateCommit db c.bookingId c.userId now) := by
            unfold handleSend
            rw [if_neg ht, if_pos h1, hvd]
            rfl
          rw [hres]
          have hfb := findBooking_validateCommit db c.bookingId c.userId now
          rw [hb, Option.map_some'] at hfb
          refine ⟨rfl, ⟨_, hfb, rfl⟩, Or.inr ?_⟩
          have h3 : dbStep (validateCommit db c.bookingId c.userId now) c.bookingId =
              HandoffStep.delivered := by
            unfold dbStep
            rw [hfb]
            rfl
          rw [h3, hdbStep, h1.1]
          rfl
        · have hvd : validateDeliveryCode db c.bookingId (jsTrim text) c.userId now =
              (db, false) := by
            unfold validateDeliveryCode
            rw [if_neg hv]
          have hres : handleSend c db text now =
              (c, sendIgnoringError db c.bookingId c.userId (jsTrim text) now) := by
            unfold handleSend
            rw [if_neg ht, if_pos h1, hvd]
            rfl
          rw [hres]
          have hbk : (sendIgnoringError db c.bookingId c.userId (jsTrim text)
              now).bookings = db.bookings := by
            unfold sendIgnoringError
            cases hsm : sendMessage db c.bookingId c.userId (jsTrim text) now with
            | ok p =>
              exact sendMessage_ok_bookings db c.bookingId c.userId (jsTrim text) now p hsm
            | error e => rfl
          have hfb2 := findBooking_congr hbk c.bookingId
          refine ⟨rfl, ⟨b, by rw [hfb2, hb], hsync⟩, Or.inl ?_⟩
          unfold dbStep
          rw [hfb2]
      · have hres : handleSend c db text now =
            (c, sendIgnoringError db c.bookingId c.userId (jsTrim text) now) := by
          unfold handleSend
          rw [if_neg ht, if_neg h1]
        rw [hres]
        have hbk : (sendIgnoringError db c.bookingId c.userId (jsTrim text)
            now).bookings = db.bookings := by
          unfold sendIgnoringError
          cases hsm : sendMessage db c.bookingId c.userId (jsTrim text) now with
          | ok p =>
            exact sendMessage_ok_bookings db c.bookingId c.userId (jsTrim text) now p hsm
          | error e => rfl
        have hfb2 := findBooking_congr hbk c.bookingId
        refine ⟨rfl, ⟨b, by rw [hfb2, hb], hsync⟩, Or.inl ?_⟩
        unfold dbStep
        rw [hfb2]
/-- When the index advances by one, the tail of the handoff order at the
old position starts with the old step followed by the tail at the new
position. -/
theorem drop_cons_of_succ (s s2 : HandoffStep) (h : stepIdx s2 = stepIdx s + 1) :
    handoffOrder.drop (stepIdx s) = s :: handoffOrder.drop (stepIdx s2) := by
  revert h
  cases s <;> cases s2 <;> decide

/-- A trace whose consecutive observations never move backward or skip a
step collapses to a contiguous run of the handoff order. -/
theorem collapse_prefix (rest : List HandoffStep) : ∀ s : HandoffStep,
    List.Chain stepR s rest →
      collapseSteps (s :: rest) <+: handoffOrder.drop (stepIdx s) := by
  induction rest with
  | nil =>
    intro s _
    cases s <;> exact ⟨_, rfl⟩
  | cons s2 rest ih =>
    intro s hchain
    cases hchain with
    | cons hR htail =>
      by_cases heq : s = s2
      · simp only [collapseSteps]
        rw [if_pos heq]
        subst heq
        exact ih s htail
      · simp only [collapseSteps]
        rw [if_neg heq]
        rcases hR with hR | hR
        · exact absurd hR.symm heq
        · obtain ⟨t, ht⟩ := ih s2 htail
          refine ⟨t, ?_⟩
          rw [drop_cons_of_succ s s2 hR, ← ht]
          rfl

/-- Starting in sync, a session's observations form a trace whose head is
the current stored step and whose consecutive entries satisfy the
forward-only relation. -/
theorem observe_chain (acts : List ClientAction) : ∀ (c : ClientState) (db : Db),
    ClientSync c db →
      ∃ rest, observe c db acts = dbStep db c.bookingId :: rest ∧
        List.Chain stepR (dbStep db c.bookingId) rest := by
  induction acts with
  | nil =>
    intro c db _
    exact ⟨[], rfl, List.Chain.nil⟩
  | cons a acts ih =>
    intro c db h
    obtain ⟨hbid, hsync2, hstepR⟩ := runAction_preserves c db a h
    obtain ⟨rest, hobs, hchain⟩ := ih (runAction c db a).1 (runAction c db a).2 hsync2
    rw [hbid] at hobs hchain
    refine ⟨dbStep (runAction c db a).2 c.bookingId :: rest, ?_, ?_⟩
    · show dbStep db c.bookingId ::
        observe (runAction c db a).1 (runAction c db a).2 acts = _
      rw [hobs]
    · exact List.Chain.cons hstepR hchain

/-- C2: for a chat session whose cached handoff step agrees with the
stored one and whose booking has not started its handoff, the stored
`handoff_step` values observed across any sequence of session actions
(handoff-button presses and sends, including delivery-code submissions),
with adjacent repetitions collapsed, form a prefix of
`[none, sender_confirmed, handed_over, delivered]`: each applied
transition is gated on the current state being the step's immediate
predecessor, so there is no backward step, no skip-ahead, and no
repetition. -/
theorem handoff_forward_only (acts : List ClientAction) (c : ClientState) (db : Db)
    (hsync : ClientSync c db) (hstart : dbStep db c.bookingId = HandoffStep.none) :
    collapseSteps (observe c db acts) <+: handoffOrder := by
  obtain ⟨rest, hobs, hchain⟩ := observe_chain acts c db hsync
  rw [hobs]
  have hpre := collapse_prefix rest (dbStep db c.bookingId) hchain
  rw [hstart] at hpre ⊢
  simpa [stepIdx] using hpre

/-- A booking whose handoff has not started. -/
def freshBooking : BookingRow :=
  { id := "b1", user_id := "s1", announcement_id := "a1",
    status := BookingStatus.approved, handoff_step := Option.none,
    delivery_code := Option.none }

/-- A database holding only the fresh booking. -/
def freshDb : Db :=
  { bookings := [freshBooking], announcements := [], profiles := [],
    messages := [], ratings := [] }

/-- The sender's chat session on the fresh booking, just loaded. -/
def senderClient : ClientState :=
  { bookingId := "b1", userId := "s1", isSender := true, isTraveler := false,
    localStep := HandoffStep.none }

/-- C2 (witness): the sender pressing the handoff button twice on a fresh
booking yields an observation trace collapsing to a prefix of the handoff
order. -/
theorem handoff_forward_only_witness :
    collapseSteps (observe senderClient freshDb
      [ClientAction.handoffAction (fun _ => 0) 1,
       ClientAction.handoffAction (fun _ => 0) 2]) <+: handoffOrder :=
  handoff_forward_only _ _ _ ⟨freshBooking, rfl, rfl⟩ rfl

/-! ### The conversation list -/

/-- The user participates in the booking: as its sender, or as the owner
of its announcement (the traveler). -/
def involves (db : Db) (userId : String) (b : BookingRow) : Bool :=
  decide (b.user_id = userId) ||
    (match findAnnouncement db b.announcement_id with
     | some a => decide (a.user_id = userId)
     | Option.none => false)

/-- Over bookings whose announcements resolve, the loop keeps exactly the
bookings involving the user, in order, one summary per booking. -/
theorem conversationRows_ids (db : Db) (userId : String) (bs : List BookingRow) :
    (∀ b ∈ bs, (findAnnouncement db b.announcement_id).isSome = true) →
    (conversationRows db userId bs).map (fun cv => cv.booking_request_id) =
      (bs.filter (fun b => involves db userId b)).map (fun b => b.id) := by
  induction bs with
  | nil => intro _; rfl
  | cons b bs ih =>
    intro h
    have hb := h b (List.mem_cons_self b bs)
    have hrest := fun x hx => h x (List.mem_cons_of_mem b hx)
    cases hann : findAnnouncement db b.announcement_id with
    | none =>
      rw [hann] at hb
      simp at hb
    | some ann =>
      have hcr : conversationRow db userId b =
          if b.user_id ≠ userId ∧ ann.user_id ≠ userId then Option.none
          else some (buildConversation db userId b ann) := by
        unfold conversationRow
        rw [hann]
      by_cases hinv : b.user_id ≠ userId ∧ ann.user_id ≠ userId
      · have h1 : conversationRow db userId b = Option.none := by
          rw [hcr, if_pos hinv]
        have h2 : involves db userId b = false := by
          unfold involves
          rw [hann]
          simp only [Bool.or_eq_false_iff, decide_eq_false_iff_not]
          exact ⟨hinv.1, hinv.2⟩
        simp only [conversationRows, List.filterMap_cons, h1, List.filter_cons, h2]
        simp only [Bool.false_eq_true, if_false]
        exact ih hrest
      · have h1 : conversationRow db userId b =
            some (buildConversation db userId b ann) := by
          rw [hcr, if_neg hinv]
        have h2 : involves db userId b = true := by
          unfold involves
          rw [hann]
          rcases not_and_or.mp hinv with h3 | h3
          · simp [not_not.mp h3]
          · simp [not_not.mp h3]
        simp only [conversationRows, List.filterMap_cons, h1, List.filter_cons, h2,
          if_true, List.map_cons]
        have htail := ih hrest
        simp only [conversationRows] at htail
        rw [htail]
        rfl

/-- A conversation built over an empty message log has an empty preview. -/
theorem buildConversation_no_messages (db : Db) (userId : String) (b : BookingRow)
    (ann : AnnouncementRow) (h : messagesFor db b.id = []) :
    (buildConversation db userId b ann).last_message = Option.none ∧
    (buildConversation db userId b ann).last_message_at = Option.none := by
  unfold buildConversation
  rw [h]
  exact ⟨rfl, rfl⟩

/-- Without messages in the conversation there is nothing unread. -/
theorem unreadCountFor_of_no_messages (db : Db) (bookingRequestId userId : String)
    (h : messagesFor db bookingRequestId = []) :
    unreadCountFor db bookingRequestId userId = 0 := by
  unfold unreadCountFor
  have hall := List.filter_eq_nil_iff.mp h
  rw [List.length_eq_zero]
  apply List.filter_eq_nil_iff.mpr
  intro m hm hconj
  rw [decide_eq_true_eq] at hconj
  exact hall m hm (by rw [decide_eq_true_eq]; exact hconj.1)

/-- C8: for a database whose bookings reference existing announcements,
the conversation list holds exactly the bookings in which the user is the
sender or the traveler (announcement owner) and whose status is not
pending, rejected or cancelled; it is ordered descending by
latest-message time with message-less conversations last, and a
qualifying booking with no messages still appears, with an empty
preview and nothing unread. -/
theorem fetchConversations_spec (db : Db) (userId : String)
    (hint : ∀ b ∈ db.bookings, (findAnnouncement db b.announcement_id).isSome = true) :
    List.Perm ((fetchConversations db userId).map (fun cv => cv.booking_request_id))
      (((db.bookings.filter (fun b => statusVisible b.status)).filter
        (fun b => involves db userId b)).map (fun b => b.id)) ∧
    List.Pairwise convBeforeOK (fetchConversations db userId) ∧
    (∀ b ∈ db.bookings, statusVisible b.status = true →
      involves db userId b = true → messagesFor db b.id = [] →
      ∃ cv ∈ fetchConversations db userId, cv.booking_request_id = b.id ∧
        cv.last_message = Option.none ∧ cv.last_message_at = Option.none ∧
        cv.unread_count = 0) := by
  refine ⟨?_, ?_, ?_⟩
  · have hperm : List.Perm
        ((fetchConversations db userId).map (fun cv => cv.booking_request_id))
        ((conversationRows db userId
          (db.bookings.filter (fun b => statusVisible b.status))).map
          (fun cv => cv.booking_request_id)) :=
      (List.perm_insertionSort convBeforeOK _).map _
    rw [conversationRows_ids db userId _
      (fun b hb => hint b (List.mem_of_mem_filter hb))] at hperm
    exact hperm
  · exact List.sorted_insertionSort convBeforeOK _
  · intro b hbmem hstat hinv hmsgs
    obtain ⟨ann, hann⟩ : ∃ ann, findAnnouncement db b.announcement_id = some ann := by
      have hsome := hint b hbmem
      cases hfa : findAnnouncement db b.announcement_id with
      | none => rw [hfa] at hsome; simp at hsome
      | some ann => exact ⟨ann, rfl⟩
    have hkeep : ¬ (b.user_id ≠ userId ∧ ann.user_id ≠ userId) := by
      unfold involves at hinv
      rw [hann] at hinv
      rintro ⟨hn1, hn2⟩
      rcases Bool.or_eq_true_iff.mp hinv with h3 | h3
      · exact hn1 (decide_eq_true_eq.mp h3)
      · exact hn2 (decide_eq_true_eq.mp h3)
    refine ⟨buildConversation db userId b ann, ?_, rfl, ?_, ?_, ?_⟩
    · unfold fetchConversations
      rw [List.mem_insertionSort]
      unfold conversationRows
      apply List.mem_filterMap.mpr
      refine ⟨b, List.mem_filter.mpr ⟨hbmem, hstat⟩, ?_⟩
      unfold conversationRow
      rw [hann]
      exact if_neg hkeep
    · exact (buildConversation_no_messages db userId b ann hmsgs).1
    · exact (buildConversation_no_messages db userId b ann hmsgs).2
    · exact unreadCountFor_of_no_messages db b.id userId hmsgs

/-- An approved booking by `u1` for announcement `a1`. -/
def convBooking : BookingRow :=
  { id := "bk1", user_id := "u1", announcement_id := "a1",
    status := BookingStatus.approved, handoff_step := Option.none,
    delivery_code := Option.none }

/-- The announcement `a1`, owned by traveler `t1`. -/
def convAnnouncement : AnnouncementRow :=
  { id := "a1", user_id := "t1", departure_city := "Paris",
    destination_city := "Dakar", departure_date := "2026-01-01" }

/-- A database with one approved booking by `u1` on `t1`'s announcement
and no messages yet. -/
def convDb : Db :=
  { bookings := [convBooking], announcements := [convAnnouncement],
    profiles := [], messages := [], ratings := [] }

/-- C8 (witness): the conversation list of the concrete database is
sorted by the comparator relation. -/
theorem fetchConversations_spec_witness :
    List.Pairwise convBeforeOK (fetchConversations convDb "u1") :=
  (fetchConversations_spec convDb "u1" (by decide)).2.1

end KiloShare
